import Mathlib

/-
Verification of the hqgohttp retry/backoff engine.

Shallow embedding conventions:
  * Go time.Duration is an int64 count of nanoseconds; we model it as Int
    together with explicit int64 range handling where the source converts
    from float64.
  * Go float64 arithmetic in the backoff policies is modelled as exact
    arithmetic (Int, or Rat where a random fraction enters).  The products
    appearing in the source, math.Pow(2, n) times float64(min), are exact
    IEEE754 computations whenever min has at most 53 significant bits
    (scaling by a power of two never rounds), so the model is faithful on
    that domain; theorems carry the corresponding bounds as hypotheses
    where they matter.
  * The crypto random draws are passed in as explicit oracle parameters.
-/

namespace Hq

/-- Smallest int64 value, the result Go produces on amd64 when a float64
out of int64 range is converted to int64. -/
def i64Min : Int := -(2 ^ 63)

/-- Largest int64 value. -/
def i64Max : Int := 2 ^ 63 - 1

/-- Conversion of an exact (integer valued) float64 to time.Duration, as in
the source expression time.Duration(mult): in range values convert
exactly, out of range values produce the minimal int64. -/
def durationOfFloatInt (x : Int) : Int :=
  if i64Min ≤ x ∧ x ≤ i64Max then x else i64Min

/-- Truncation toward zero, the Go semantics of converting a float64 value
to an integer type, on exact rational inputs. -/
def goTrunc (q : ℚ) : Int :=
  if 0 ≤ q then ⌊q⌋ else ⌈q⌉

/-- Conversion of an exact rational float64 value to time.Duration:
truncation toward zero in range, minimal int64 out of range. -/
def durationOfFloatRat (q : ℚ) : Int :=
  if (i64Min : ℚ) ≤ q ∧ q ≤ (i64Max : ℚ) then goTrunc q else i64Min

/-- DefaultBackoff from the source: mult := math.Pow(2, attemptNum) *
float64(min); sleep := time.Duration(mult); if float64(sleep) != mult or
sleep > max then sleep = max.  The float64 product is modelled exactly; the
guard float64(sleep) != mult is the comparison sleep ≠ mult, which in the
model captures the out of range clamp. -/
def defaultBackoff (mn mx : Int) (attemptNum : Nat) : Int :=
  let mult : Int := 2 ^ attemptNum * mn
  let sleep : Int := durationOfFloatInt mult
  if sleep ≠ mult ∨ mx < sleep then mx else sleep

/-- LinearJitterBackoff from the source.  attemptNum is incremented first;
if max ≤ min the result is min * attemptNum; otherwise jitter :=
randFloat * float64(max-min); jitterMin := int64(jitter) + int64(min); the
result is jitterMin * attemptNum.  randFloat is the crypto random draw in
[0, 1), passed as an oracle parameter. -/
def linearJitterBackoff (mn mx : Int) (attemptNum : Nat) (randFloat : ℚ) : Int :=
  let attemptNum1 : Int := (attemptNum : Int) + 1
  if mx ≤ mn then
    mn * attemptNum1
  else
    let jitter : ℚ := randFloat * ((mx : ℚ) - (mn : ℚ))
    let jitterMin : Int := goTrunc jitter + mn
    jitterMin * attemptNum1

/-- Model of cryptoRandInt from the source: for max ≤ 0 it returns 0,
otherwise a uniform draw in [0, max), here the oracle parameter r. -/
def cryptoRandIntModel (max r : Int) : Int :=
  if max ≤ 0 then 0 else r

/-- FullJitterBackoff from the source: duration := attemptNum * 1000000000
<< 1; jitter := cryptoRandInt(duration-attemptNum) + int(min); if jitter >
int(max) return max; return time.Duration(jitter). -/
def fullJitterBackoff (mn mx : Int) (attemptNum : Nat) (r : Int) : Int :=
  let duration : Int := (attemptNum : Int) * 1000000000 * 2
  let jitter : Int := cryptoRandIntModel (duration - (attemptNum : Int)) r + mn
  if mx < jitter then mx else jitter

/-- ExponentialJitterBackoff from the source: minf := float64(min); mult :=
math.Pow(2, attemptNum) * minf; jitter := randFloat * (mult - minf); mult
+= jitter; sleep := time.Duration(mult); if sleep > max then sleep = max.
randFloat is the crypto random draw in [0, 1), an oracle parameter. -/
def exponentialJitterBackoff (mn mx : Int) (attemptNum : Nat) (randFloat : ℚ) : Int :=
  let minf : ℚ := (mn : ℚ)
  let mult : ℚ := 2 ^ attemptNum * minf
  let jitter : ℚ := randFloat * (mult - minf)
  let mult2 : ℚ := mult + jitter
  let sleep : Int := durationOfFloatRat mult2
  if mx < sleep then mx else sleep

end Hq

namespace Hq

/-- C1 counterexample: LinearJitterBackoff violates the claimed bound.  At
min = max = 1 and attempt number 1 the source takes the max ≤ min branch
and returns min * (attempt + 1) = 2, strictly above max = 1, even though
min ≤ max and the attempt number is nonnegative. -/
theorem linearJitterBackoff_exceeds_max :
    (1 : Int) ≤ 1 ∧ (1 : Int) < linearJitterBackoff 1 1 1 0 := by
  constructor
  · exact le_refl 1
  · decide

/-- C1 (amended): every backoff policy except LinearJitterBackoff is
bounded by max, for all inputs, attempt numbers and random draws:
DefaultBackoff, FullJitterBackoff and ExponentialJitterBackoff each clamp
their result to max before returning. -/
theorem backoff_le_max (mn mx : Int) (n : Nat) (r : Int) (qE : ℚ) :
    defaultBackoff mn mx n ≤ mx ∧
      fullJitterBackoff mn mx n r ≤ mx ∧
      exponentialJitterBackoff mn mx n qE ≤ mx := by
  refine ⟨?_, ?_, ?_⟩
  · unfold defaultBackoff
    dsimp only
    split
    · exact le_refl mx
    · next h =>
      push_neg at h
      exact h.2
  · unfold fullJitterBackoff
    dsimp only
    split
    · exact le_refl mx
    · next h => omega
  · unfold exponentialJitterBackoff
    dsimp only
    split
    · exact le_refl mx
    · next h => omega

/-- C8: DefaultBackoff is a deterministic function computing exactly
min(min * 2 ^ attempt, max), clamping to max also when the multiplication
leaves the int64 range.  The hypotheses keep min inside the domain where
the float64 arithmetic of the source is exact and max inside int64. -/
theorem defaultBackoff_eq_min (mn mx : Int) (n : Nat)
    (h0 : 0 ≤ mn) (h53 : mn ≤ 2 ^ 53) (hmx : mx ≤ i64Max) :
    defaultBackoff mn mx n = min (2 ^ n * mn) mx := by
  unfold defaultBackoff durationOfFloatInt
  dsimp only
  have hmult : (0 : Int) ≤ 2 ^ n * mn := by positivity
  by_cases hr : 2 ^ n * mn ≤ i64Max
  · have hin : i64Min ≤ 2 ^ n * mn ∧ 2 ^ n * mn ≤ i64Max := by
      refine ⟨le_trans ?_ hmult, hr⟩
      unfold i64Min
      omega
    rw [if_pos hin]
    by_cases hcl : mx < 2 ^ n * mn
    · rw [if_pos (Or.inr hcl)]
      omega
    · rw [if_neg ?_]
      · omega
      · push_neg
        exact ⟨rfl, by omega⟩
  · have hin : ¬ (i64Min ≤ 2 ^ n * mn ∧ 2 ^ n * mn ≤ i64Max) := fun h => hr h.2
    rw [if_neg hin]
    rw [if_pos ?_]
    · omega
    · left
      unfold i64Min
      omega

/-- Witness for C8 at concrete inputs, including an overflow input: with
min one second and attempt 40 the product leaves int64 and the result is
clamped to max. -/
theorem defaultBackoff_eq_min_witness :
    (0 : Int) ≤ 1000000000 ∧ (1000000000 : Int) ≤ 2 ^ 53 ∧ (30000000000 : Int) ≤ i64Max ∧
      defaultBackoff 1000000000 30000000000 40 = min (2 ^ 40 * 1000000000) 30000000000 :=
  ⟨by decide, by decide, by decide,
    defaultBackoff_eq_min 1000000000 30000000000 40 (by decide) (by decide) (by decide)⟩

end Hq

namespace Hq

/-- Classification of a url.Error as performed by the source helpers
isRedirectError (regex, stopped after N redirects), isSchemeError (regex,
unsupported protocol scheme) and isUnknownAuthorityError (errors.As to
x509.UnknownAuthorityError on the nested error).  The three string or type
tests are modelled as Boolean attributes of the error value. -/
structure UrlErrFlags where
  redirect : Bool
  scheme : Bool
  unknownAuthority : Bool
deriving DecidableEq

/-- Model of Go error values reaching the client: a url.Error with its
classification, the specific malformed HTTP version error text the
executor matches for the HTTP2 fallback, context errors, the synthetic
giving up error built by fmt.Errorf with format string
"%s %s giving up after %d attempts: %w" (fields method, URL, attempt count
and wrapped cause), a wrapper produced by error wrapping, and opaque other
errors. -/
inductive GoErr where
  | urlErr (flags : UrlErrFlags)
  | malformedHTTP2
  | ctxCanceled
  | ctxDeadlineExceeded
  | givingUp (method url : String) (attempts : Int) (wrapped : Option GoErr)
  | wrap (inner : GoErr)
  | other (code : Nat)

/-- Model of errors.As(err, &urlErr): finds the url.Error through the
unwrap chain. -/
def asUrlError : GoErr → Option UrlErrFlags
  | .urlErr f => some f
  | .wrap e => asUrlError e
  | .givingUp _ _ _ (some e) => asUrlError e
  | _ => none

/-- CheckRecoverableErrors from the source, over (ctx.Err(), err): return
(false, ctx.Err()) when the context is done; (false, nil) when err is nil;
when errors.As finds a url.Error whose redirect, scheme or unknown
authority test fires, (false, nil); otherwise (true, nil). -/
def checkRecoverableErrors (ctxErr : Option GoErr) (err : Option GoErr) :
    Bool × Option GoErr :=
  match ctxErr with
  | some e => (false, some e)
  | none =>
    match err with
    | none => (false, none)
    | some e =>
      match asUrlError e with
      | some f =>
        if f.redirect || f.scheme || f.unknownAuthority then (false, none)
        else (true, none)
      | none => (true, none)

/-- C5: the default retry policy returns (false, ctx.Err()) on a done
context, (false, nil) on a nil error, (false, nil) on a url.Error
classified as redirect exhaustion, unsupported scheme or unknown
authority, and (true, nil) on every other non nil error. -/
theorem checkRecoverableErrors_spec :
    (∀ e err, checkRecoverableErrors (some e) err = (false, some e)) ∧
      checkRecoverableErrors none none = (false, none) ∧
      (∀ e f, asUrlError e = some f →
        (f.redirect || f.scheme || f.unknownAuthority) = true →
        checkRecoverableErrors none (some e) = (false, none)) ∧
      (∀ e, (∀ f, asUrlError e = some f →
          (f.redirect || f.scheme || f.unknownAuthority) = false) →
        checkRecoverableErrors none (some e) = (true, none)) := by
  refine ⟨fun e err => rfl, rfl, ?_, ?_⟩
  · intro e f hf hflags
    simp [checkRecoverableErrors, hf, hflags]
  · intro e hf
    cases hu : asUrlError e with
    | none => simp [checkRecoverableErrors, hu]
    | some f => simp [checkRecoverableErrors, hu, hf f hu]

/-- Witness for C5: the four cases of the policy evaluated at concrete
errors through the theorem. -/
theorem checkRecoverableErrors_spec_witness :
    checkRecoverableErrors (some GoErr.ctxCanceled) none =
        (false, some GoErr.ctxCanceled) ∧
      checkRecoverableErrors none none = (false, none) ∧
      checkRecoverableErrors none (some (GoErr.urlErr ⟨true, false, false⟩)) =
        (false, none) ∧
      checkRecoverableErrors none (some (GoErr.other 7)) = (true, none) :=
  ⟨checkRecoverableErrors_spec.1 GoErr.ctxCanceled none,
    checkRecoverableErrors_spec.2.1,
    checkRecoverableErrors_spec.2.2.1 (GoErr.urlErr ⟨true, false, false⟩)
      ⟨true, false, false⟩ rfl rfl,
    checkRecoverableErrors_spec.2.2.2 (GoErr.other 7)
      (fun f hf => by simp [asUrlError] at hf)⟩

end Hq

namespace Hq

/-- Result pair of one transport call: response or nil, error or nil.
Responses are identified by a number. -/
structure AttemptOutcome where
  res : Option Nat
  err : Option GoErr

/-- Resolution of the inter attempt select: the main (overall timeout)
context fired, the request context fired, or the backoff timer elapsed. -/
inductive WaitOutcome where
  | mainDone
  | reqDone
  | timer
deriving DecidableEq

/-- Test the executor applies to the attempt error: strings.Contains on
the error text with the malformed HTTP version message, modelled
structurally through the wrap chain. -/
def isMalformedHTTP2Err : GoErr → Bool
  | .malformedHTTP2 => true
  | .wrap e => isMalformedHTTP2Err e
  | _ => false

/-- Environment of one Client.Do call: outcome of each transport attempt
(primary or digest path) per iteration, outcome of the HTTP2 fallback per
iteration, the request context error observed during each iteration, the
configured CheckRetry policy on (ctx.Err(), res, err), the resolution of
each inter attempt select, and the optional ErrorHandler. -/
structure DoEnv where
  attemptResult : Nat → AttemptOutcome
  http2Result : Nat → AttemptOutcome
  reqCtxErr : Nat → Option GoErr
  checkRetry : Option GoErr → Option Nat → Option GoErr → Bool × Option GoErr
  waitOutcome : Nat → WaitOutcome
  errorHandler : Option (Option Nat → Option GoErr → Int → Option Nat × Option GoErr)

/-- Observable result of Client.Do in the model: the returned pair, the
number of loop iterations (transport attempts) performed, whether the give
up (budget exhaustion) path was taken, and whether the default give up
path closed the last response body. -/
structure DoResult where
  res : Option Nat
  err : Option GoErr
  attempts : Nat
  gaveUp : Bool
  closedBody : Bool

/-- Attempt phase of one loop iteration of Client.Do: perform the attempt,
run CheckRetry, and on the malformed HTTP version error retry once on the
HTTP2 client and re run CheckRetry, as in the source.  Returns the current
(res, err) pair together with the (checkOK, checkErr) decision. -/
def attemptPhase (env : DoEnv) (i : Nat) : AttemptOutcome × (Bool × Option GoErr) :=
  let first := env.attemptResult i
  let check0 := env.checkRetry (env.reqCtxErr i) first.res first.err
  match first.err with
  | some e =>
    if isMalformedHTTP2Err e then
      let second := env.http2Result i
      (second, env.checkRetry (env.reqCtxErr i) second.res second.err)
    else
      (first, check0)
  | none => (first, check0)

/-- Give up path of Client.Do once the retry budget is exhausted: either
the configured ErrorHandler builds the returned pair from (last response,
last error, retryMax+1), or the default path closes the last response body
when present and returns nil together with the synthetic giving up error
carrying method, URL, retryMax+1 and the last error as wrapped cause. -/
def doFinish (env : DoEnv) (retryMax : Int) (method url : String)
    (out : AttemptOutcome) (attempts : Nat) : DoResult :=
  match env.errorHandler with
  | some handler =>
    let pair := handler out.res out.err (retryMax + 1)
    ⟨pair.1, pair.2, attempts, true, false⟩
  | none =>
    ⟨none, some (.givingUp method url (retryMax + 1) out.err), attempts, true,
      out.res.isSome⟩

/-- Retry loop of Client.Do from iteration i on: attempt phase; if
CheckRetry says stop, return (res, err) with err replaced by a non nil
check error; if the remaining budget retryMax - i is not positive, break
to the give up path; otherwise resolve the inter attempt select: the
request context case returns nil with the request context error, while the
main context case and the timer case both continue with iteration i+1
(the main context case of the source select does nothing). -/
def doLoop (env : DoEnv) (retryMax : Int) (method url : String) (i : Nat) : DoResult :=
  let step := attemptPhase env i
  let out := step.1
  let check := step.2
  if check.1 = false then
    ⟨out.res, (match check.2 with | some e => some e | none => out.err), i + 1,
      false, false⟩
  else if _h : retryMax - (i : Int) ≤ 0 then
    doFinish env retryMax method url out (i + 1)
  else
    match env.waitOutcome i with
    | .reqDone => ⟨none, env.reqCtxErr i, i + 1, false, false⟩
    | _ => doLoop env retryMax method url (i + 1)
termination_by (retryMax - (i : Int)).toNat
decreasing_by
  omega

/-- Effective retry ceiling of one call: the per call override attached to
the request context under the RetryMax key takes precedence over
Options.RetryMax. -/
def effectiveRetryMax (optRetryMax : Int) (ctxOverride : Option Int) : Int :=
  match ctxOverride with
  | some m => m
  | none => optRetryMax

/-- Client.Do in the model: resolve the effective retry ceiling, then run
the retry loop from iteration 0. -/
def clientDo (env : DoEnv) (optRetryMax : Int) (ctxOverride : Option Int)
    (method url : String) : DoResult :=
  doLoop env (effectiveRetryMax optRetryMax ctxOverride) method url 0

theorem doFinish_attempts (env : DoEnv) (rm : Int) (m u : String)
    (out : AttemptOutcome) (a : Nat) : (doFinish env rm m u out a).attempts = a := by
  unfold doFinish
  cases env.errorHandler <;> rfl

theorem doFinish_gaveUp (env : DoEnv) (rm : Int) (m u : String)
    (out : AttemptOutcome) (a : Nat) : (doFinish env rm m u out a).gaveUp = true := by
  unfold doFinish
  cases env.errorHandler <;> rfl

theorem attemptPhase_check_true (env : DoEnv) (i : Nat)
    (hcheck : ∀ c r e, env.checkRetry c r e = (true, none)) :
    (attemptPhase env i).2 = (true, none) := by
  unfold attemptPhase
  cases h : (env.attemptResult i).err with
  | none => simp [h, hcheck]
  | some e =>
    simp only [h, hcheck]
    split <;> rfl

end Hq

namespace Hq

theorem doLoop_attempts_ge (env : DoEnv) (rm : Int) (m u : String) :
    ∀ (k i : Nat), (rm - (i : Int)).toNat ≤ k → i + 1 ≤ (doLoop env rm m u i).attempts := by
  intro k
  induction k with
  | zero =>
    intro i hk
    rw [doLoop.eq_def]
    dsimp only
    split
    · exact Nat.le_refl _
    · split
      · rw [doFinish_attempts]
      · next h _ => omega
  | succ k ih =>
    intro i hk
    rw [doLoop.eq_def]
    dsimp only
    split
    · exact Nat.le_refl _
    · split
      · rw [doFinish_attempts]
      · split
        · exact Nat.le_refl _
        · next h _ _ =>
          have := ih (i + 1) (by omega)
          omega

theorem doLoop_attempts_le (env : DoEnv) (rm : Int) (m u : String) :
    ∀ (k i : Nat), (rm - (i : Int)).toNat ≤ k →
      (doLoop env rm m u i).attempts ≤ (rm - (i : Int)).toNat + i + 1 := by
  intro k
  induction k with
  | zero =>
    intro i hk
    rw [doLoop.eq_def]
    dsimp only
    split
    · dsimp only
      omega
    · split
      · rw [doFinish_attempts]
        omega
      · next h _ => omega
  | succ k ih =>
    intro i hk
    rw [doLoop.eq_def]
    dsimp only
    split
    · dsimp only
      omega
    · split
      · rw [doFinish_attempts]
        omega
      · split
        · dsimp only
          omega
        · next h _ _ =>
          have := ih (i + 1) (by omega)
          omega

theorem doLoop_exhausts (env : DoEnv) (rm : Int) (m u : String)
    (hcheck : ∀ c r e, env.checkRetry c r e = (true, none))
    (hwait : ∀ j, env.waitOutcome j ≠ WaitOutcome.reqDone) :
    ∀ (k i : Nat), (rm - (i : Int)).toNat ≤ k → (i : Int) ≤ rm →
      (doLoop env rm m u i).attempts = (rm - (i : Int)).toNat + i + 1 ∧
        (doLoop env rm m u i).gaveUp = true := by
  intro k
  induction k with
  | zero =>
    intro i hk hi
    rw [doLoop.eq_def]
    dsimp only
    rw [if_neg (by simp [attemptPhase_check_true env i hcheck])]
    rw [dif_pos (by omega)]
    refine ⟨?_, doFinish_gaveUp env rm m u _ _⟩
    rw [doFinish_attempts]
    omega
  | succ k ih =>
    intro i hk hi
    rw [doLoop.eq_def]
    dsimp only
    rw [if_neg (by simp [attemptPhase_check_true env i hcheck])]
    by_cases hr : rm - (i : Int) ≤ 0
    · rw [dif_pos hr]
      refine ⟨?_, doFinish_gaveUp env rm m u _ _⟩
      rw [doFinish_attempts]
      omega
    · rw [dif_neg hr]
      cases hw : env.waitOutcome i with
      | reqDone => exact absurd hw (hwait i)
      | mainDone =>
        obtain ⟨h1, h2⟩ := ih (i + 1) (by omega) (by omega)
        dsimp only
        exact ⟨by omega, h2⟩
      | timer =>
        obtain ⟨h1, h2⟩ := ih (i + 1) (by omega) (by omega)
        dsimp only
        exact ⟨by omega, h2⟩

end Hq

namespace Hq

/-- Environment in which every attempt fails with an opaque error, the
request context never reports an error, the configured CheckRetry policy
always returns (true, nil), no ErrorHandler is configured, and every inter
attempt select resolves through the given case. -/
def alwaysRetryEnv (w : WaitOutcome) : DoEnv :=
  ⟨fun _ => ⟨none, some (.other 0)⟩, fun _ => ⟨none, some (.other 0)⟩,
    fun _ => none, fun _ _ _ => (true, none), fun _ => w, none⟩

/-- C2: with a CheckRetry policy that always returns (true, nil) and no
request context cancellation during the waits, Client.Do with retry budget
rm ≥ 0 performs exactly rm + 1 transport attempts and then takes the give
up path; and in general, for any environment and any effective retry
ceiling that is nonnegative, the total number of attempts never exceeds
the effective ceiling plus one. -/
theorem clientDo_budget_spec (env : DoEnv) (rm : Int) (m u : String)
    (hcheck : ∀ c r e, env.checkRetry c r e = (true, none))
    (hwait : ∀ i, env.waitOutcome i ≠ WaitOutcome.reqDone)
    (hrm : 0 ≤ rm) :
    ((clientDo env rm none m u).attempts : Int) = rm + 1 ∧
      (clientDo env rm none m u).gaveUp = true ∧
      ∀ (env2 : DoEnv) (rm2 : Int) (ctxO : Option Int) (m2 u2 : String),
        0 ≤ effectiveRetryMax rm2 ctxO →
        ((clientDo env2 rm2 ctxO m2 u2).attempts : Int) ≤ effectiveRetryMax rm2 ctxO + 1 := by
  have hmain := doLoop_exhausts env rm m u hcheck hwait (rm - (0 : Int)).toNat 0
    (le_refl _) (by omega)
  obtain ⟨h1, h2⟩ := hmain
  refine ⟨?_, ?_, ?_⟩
  · show ((doLoop env rm m u 0).attempts : Int) = rm + 1
    omega
  · exact h2
  · intro env2 rm2 ctxO m2 u2 heff
    have := doLoop_attempts_le env2 (effectiveRetryMax rm2 ctxO) m2 u2
      ((effectiveRetryMax rm2 ctxO - (0 : Int)).toNat) 0 (le_refl _)
    show ((doLoop env2 (effectiveRetryMax rm2 ctxO) m2 u2 0).attempts : Int) ≤
      effectiveRetryMax rm2 ctxO + 1
    omega

/-- Witness for C2 at a concrete environment and budget 2: exactly three
attempts, give up path taken, and the general bound instantiated. -/
theorem clientDo_budget_spec_witness :
    ((clientDo (alwaysRetryEnv WaitOutcome.timer) 2 none "GET" "http://h").attempts : Int) =
        2 + 1 ∧
      (clientDo (alwaysRetryEnv WaitOutcome.timer) 2 none "GET" "http://h").gaveUp = true ∧
      ∀ (env2 : DoEnv) (rm2 : Int) (ctxO : Option Int) (m2 u2 : String),
        0 ≤ effectiveRetryMax rm2 ctxO →
        ((clientDo env2 rm2 ctxO m2 u2).attempts : Int) ≤ effectiveRetryMax rm2 ctxO + 1 :=
  clientDo_budget_spec (alwaysRetryEnv WaitOutcome.timer) 2 "GET" "http://h"
    (fun _ _ _ => rfl) (fun _ => by simp [alwaysRetryEnv]) (by decide)

/-- C10: Client.Do always performs at least one transport attempt, for
every environment and every effective retry ceiling including zero and
negative per call overrides; and whenever the effective ceiling is not
positive, exactly one attempt is performed, because the budget check
happens only after the attempt and the retry decision. -/
theorem clientDo_at_least_one_attempt (env : DoEnv) (rm : Int)
    (ctxO : Option Int) (m u : String) :
    1 ≤ (clientDo env rm ctxO m u).attempts ∧
      (effectiveRetryMax rm ctxO ≤ 0 → (clientDo env rm ctxO m u).attempts = 1) := by
  constructor
  · have := doLoop_attempts_ge env (effectiveRetryMax rm ctxO) m u
      ((effectiveRetryMax rm ctxO - (0 : Int)).toNat) 0 (le_refl _)
    exact this
  · intro heff
    show (doLoop env (effectiveRetryMax rm ctxO) m u 0).attempts = 1
    rw [doLoop.eq_def]
    dsimp only
    split
    · rfl
    · rw [dif_pos (by omega)]
      rw [doFinish_attempts]

/-- Witness for C10 at a concrete environment with a negative per call
override: exactly one attempt. -/
theorem clientDo_at_least_one_attempt_witness :
    1 ≤ (clientDo (alwaysRetryEnv WaitOutcome.timer) 5 (some (-3)) "GET" "http://h").attempts ∧
      (clientDo (alwaysRetryEnv WaitOutcome.timer) 5 (some (-3)) "GET" "http://h").attempts = 1 :=
  ⟨(clientDo_at_least_one_attempt (alwaysRetryEnv WaitOutcome.timer) 5 (some (-3)) "GET" "http://h").1,
    (clientDo_at_least_one_attempt (alwaysRetryEnv WaitOutcome.timer) 5 (some (-3)) "GET" "http://h").2
      (by decide)⟩

end Hq

namespace Hq

/-- C6: if, at an iteration whose retry decision was to continue and whose
remaining budget is positive, the inter attempt select resolves through
the request context case (the request context became done while the
executor was suspended in the wait), then Client.Do returns immediately a
nil response together with the request context error, performing no
further attempts and not taking the give up path. -/
theorem doLoop_reqDone_aborts (env : DoEnv) (rm : Int) (m u : String) (i : Nat)
    (hcheck : (attemptPhase env i).2.1 = true)
    (hremain : 0 < rm - (i : Int))
    (hwait : env.waitOutcome i = WaitOutcome.reqDone) :
    doLoop env rm m u i = ⟨none, env.reqCtxErr i, i + 1, false, false⟩ := by
  rw [doLoop.eq_def]
  dsimp only
  rw [if_neg (by simp [hcheck])]
  rw [dif_neg (by omega)]
  rw [hwait]

/-- Environment in which every attempt fails with an opaque error, the
request context is canceled, the CheckRetry policy always continues, the
select resolves through the request context case, and no ErrorHandler is
configured. -/
def canceledEnv : DoEnv :=
  ⟨fun _ => ⟨none, some (.other 0)⟩, fun _ => ⟨none, some (.other 0)⟩,
    fun _ => some .ctxCanceled, fun _ _ _ => (true, none),
    fun _ => .reqDone, none⟩

/-- Witness for C6: at the first wait of a call with budget 5 the request
context fires; Client.Do returns nil and the cancellation error after one
attempt. -/
theorem doLoop_reqDone_aborts_witness :
    doLoop canceledEnv 5 "GET" "http://h" 0 =
      ⟨none, some GoErr.ctxCanceled, 1, false, false⟩ :=
  doLoop_reqDone_aborts canceledEnv 5 "GET" "http://h" 0 rfl (by decide) rfl

/-- C7: at an iteration whose retry decision was to continue and whose
remaining budget is exhausted, Client.Do takes the give up path: with no
ErrorHandler configured it closes the last response body exactly when a
response exists and returns a nil response together with the synthetic
giving up error carrying the method, the URL, the attempt count
retryMax + 1, and wrapping the last error; with an ErrorHandler configured
the handler receives the last response, the last error and retryMax + 1
and fully determines the returned pair (and no body is closed). -/
theorem doLoop_giveUp_spec (env : DoEnv) (rm : Int) (m u : String) (i : Nat)
    (hcheck : (attemptPhase env i).2.1 = true)
    (hremain : rm - (i : Int) ≤ 0) :
    (env.errorHandler = none →
      doLoop env rm m u i =
        ⟨none, some (.givingUp m u (rm + 1) (attemptPhase env i).1.err), i + 1, true,
          (attemptPhase env i).1.res.isSome⟩) ∧
      (∀ handler, env.errorHandler = some handler →
        doLoop env rm m u i =
          ⟨(handler (attemptPhase env i).1.res (attemptPhase env i).1.err (rm + 1)).1,
            (handler (attemptPhase env i).1.res (attemptPhase env i).1.err (rm + 1)).2,
            i + 1, true, false⟩) := by
  constructor
  · intro hnone
    rw [doLoop.eq_def]
    dsimp only
    rw [if_neg (by simp [hcheck])]
    rw [dif_pos hremain]
    unfold doFinish
    rw [hnone]
  · intro handler hsome
    rw [doLoop.eq_def]
    dsimp only
    rw [if_neg (by simp [hcheck])]
    rw [dif_pos hremain]
    unfold doFinish
    rw [hsome]

/-- Environment identical to canceledEnv except that an ErrorHandler is
configured which returns the last response and error unchanged. -/
def handlerEnv : DoEnv :=
  ⟨fun _ => ⟨some 7, none⟩, fun _ => ⟨some 7, none⟩,
    fun _ => none, fun _ _ _ => (true, none),
    fun _ => .timer, some (fun r e _ => (r, e))⟩

/-- Witness for C7: with budget 0 the default path returns the giving up
error after one attempt, and with an ErrorHandler the handler output is
returned. -/
theorem doLoop_giveUp_spec_witness :
    doLoop canceledEnv 0 "GET" "http://h" 0 =
        ⟨none, some (GoErr.givingUp "GET" "http://h" 1 (some (GoErr.other 0))), 1, true,
          false⟩ ∧
      doLoop handlerEnv 0 "GET" "http://h" 0 = ⟨some 7, none, 1, true, false⟩ :=
  ⟨(doLoop_giveUp_spec canceledEnv 0 "GET" "http://h" 0 rfl (by decide)).1 rfl,
    (doLoop_giveUp_spec handlerEnv 0 "GET" "http://h" 0 rfl (by decide)).2
      (fun r e _ => (r, e)) rfl⟩

/-- C4 counterexample: the overall deadline having elapsed does not stop
further transport attempts.  In an environment where the main context is
done at every inter attempt select (the select resolves through the main
context case from the first wait on) and the policy keeps retrying, a call
with budget 2 still performs three transport attempts, two of them after
the overall deadline elapsed. -/
theorem mainCtx_done_attempts_continue :
    (alwaysRetryEnv WaitOutcome.mainDone).waitOutcome 0 = WaitOutcome.mainDone ∧
      (clientDo (alwaysRetryEnv WaitOutcome.mainDone) 2 none "GET" "http://h").attempts = 3 := by
  constructor
  · rfl
  · have := doLoop_exhausts (alwaysRetryEnv WaitOutcome.mainDone) 2 "GET" "http://h"
      (fun _ _ _ => rfl) (fun _ => by simp [alwaysRetryEnv]) 2 0 (by decide) (by decide)
    exact this.1

/-- C4 (amended): when the inter attempt select resolves through the main
(overall timeout) context case, the executor does not abort: the source
select case body does nothing, so the loop skips the backoff wait and
proceeds with the next attempt. -/
theorem doLoop_mainDone_continues (env : DoEnv) (rm : Int) (m u : String) (i : Nat)
    (hcheck : (attemptPhase env i).2.1 = true)
    (hremain : 0 < rm - (i : Int))
    (hwait : env.waitOutcome i = WaitOutcome.mainDone) :
    doLoop env rm m u i = doLoop env rm m u (i + 1) := by
  rw [doLoop.eq_def]
  dsimp only
  rw [if_neg (by simp [hcheck])]
  rw [dif_neg (by omega)]
  rw [hwait]

/-- Witness for the amended C4: first wait resolves through the main
context case and the loop moves to attempt 1. -/
theorem doLoop_mainDone_continues_witness :
    doLoop (alwaysRetryEnv WaitOutcome.mainDone) 2 "GET" "http://h" 0 =
      doLoop (alwaysRetryEnv WaitOutcome.mainDone) 2 "GET" "http://h" 1 :=
  doLoop_mainDone_continues (alwaysRetryEnv WaitOutcome.mainDone) 2 "GET" "http://h" 0
    rfl (by decide) rfl

end Hq

namespace Hq

/-- Threshold constant closeConnectionsCounter from the source. -/
def closeConnectionsCounter : Nat := 100

/-- Client.closeIdleConnections from the source, on the shared request
counter: when the kill idle flag is set, a counter below the threshold is
incremented, otherwise the counter is reset to zero and the idle
connections of the primary transport are force closed.  Returns the new
counter value and whether a forced closure happened. -/
def closeIdleConnections (killIdleConn : Bool) (requestCounter : Nat) : Nat × Bool :=
  if killIdleConn then
    if requestCounter < closeConnectionsCounter then
      (requestCounter + 1, false)
    else
      (0, true)
  else
    (requestCounter, false)

/-- Sequential bookkeeping calls: runCloseIdle kill start n performs n
calls to closeIdleConnections starting from counter value start and
returns the final counter value together with the number of forced
closures performed. -/
def runCloseIdle (killIdleConn : Bool) (start : Nat) : Nat → Nat × Nat
  | 0 => (start, 0)
  | n + 1 =>
    let prev := runCloseIdle killIdleConn start n
    let step := closeIdleConnections killIdleConn prev.1
    (step.1, prev.2 + (if step.2 then 1 else 0))

set_option maxRecDepth 4000 in
/-- C3 counterexample: with the kill idle flag enabled and the counter at
zero, 100 bookkeeping calls produce no forced closure at all and leave the
counter at 100, not one closure and a counter reset to zero. -/
theorem closeIdle_100_calls_no_closure :
    runCloseIdle true 0 100 = (100, 0) ∧ runCloseIdle true 0 100 ≠ (0, 1) := by
  constructor
  · decide
  · decide

set_option maxRecDepth 4000 in
/-- C3 (amended): the closure period is 101 calls: with the flag enabled
and the counter at zero, 101 bookkeeping calls trigger exactly one forced
idle connection closure and leave the counter reset to zero. -/
theorem closeIdle_101_calls_one_closure :
    runCloseIdle true 0 101 = (0, 1) := by
  decide

/-- Timeout configuration performed by New, modelled on int64 nanosecond
values: DefaultHTTPClient leaves the client timeout at the zero value;
when Options.Timeout > 0 both internal clients receive it; then, when
Options.Timeout exceeds 15 seconds, Options.RetryMax is above 1 and
NoAdjustTimeout is false, the primary client timeout becomes
time.Duration(Options.Timeout.Seconds()*0.3) * time.Second, which on exact
arithmetic is the truncation of 30 percent of the timeout in seconds,
scaled back to nanoseconds: 3 * T / 10000000000 * 1000000000.  Returns the
pair (primary client timeout, HTTP2 client timeout). -/
def newClientTimeouts (timeout retryMax : Int) (noAdjustTimeout : Bool) : Int × Int :=
  let primary : Int := if 0 < timeout then timeout else 0
  let secondary : Int := if 0 < timeout then timeout else 0
  let primary : Int :=
    if 15 * 1000000000 < timeout ∧ 1 < retryMax ∧ noAdjustTimeout = false then
      3 * timeout / 10000000000 * 1000000000
    else primary
  (primary, secondary)

/-- C9: with a positive configured timeout, New shrinks the primary client
per attempt timeout to 30 percent of the overall deadline (truncated to
whole seconds, hence at most 30 percent and strictly below the deadline)
exactly when Options.Timeout exceeds 15 seconds, Options.RetryMax is above
1 and NoAdjustTimeout is false; otherwise the primary client keeps the
full configured timeout; and the HTTP2 fallback client always keeps the
full configured timeout. -/
theorem newClientTimeouts_spec (T rm : Int) (noAdj : Bool) (hT : 0 < T) :
    ((15 * 1000000000 < T ∧ 1 < rm ∧ noAdj = false) →
      (newClientTimeouts T rm noAdj).1 = 3 * T / 10000000000 * 1000000000 ∧
        (newClientTimeouts T rm noAdj).1 * 10 ≤ 3 * T ∧
        (newClientTimeouts T rm noAdj).1 < T) ∧
      (¬ (15 * 1000000000 < T ∧ 1 < rm ∧ noAdj = false) →
        (newClientTimeouts T rm noAdj).1 = T) ∧
      (newClientTimeouts T rm noAdj).2 = T := by
  unfold newClientTimeouts
  dsimp only
  refine ⟨?_, ?_, ?_⟩
  · intro hcond
    rw [if_pos hcond]
    refine ⟨rfl, ?_, ?_⟩ <;> omega
  · intro hcond
    rw [if_neg hcond]
    rw [if_pos hT]
  · rw [if_pos hT]

/-- Witness for C9: timeout 30 seconds, four retries, adjustment enabled:
the primary timeout becomes 9 seconds while the HTTP2 client keeps 30
seconds; and with NoAdjustTimeout set the primary keeps 30 seconds. -/
theorem newClientTimeouts_spec_witness :
    ((newClientTimeouts 30000000000 4 false).1 = 3 * 30000000000 / 10000000000 * 1000000000 ∧
        (newClientTimeouts 30000000000 4 false).1 * 10 ≤ 3 * 30000000000 ∧
        (newClientTimeouts 30000000000 4 false).1 < 30000000000) ∧
      (newClientTimeouts 30000000000 4 true).1 = 30000000000 ∧
      (newClientTimeouts 30000000000 4 false).2 = 30000000000 :=
  ⟨(newClientTimeouts_spec 30000000000 4 false (by decide)).1 (by decide),
    (newClientTimeouts_spec 30000000000 4 true (by decide)).2.1 (by decide),
    (newClientTimeouts_spec 30000000000 4 false (by decide)).2.2⟩

end Hq
